import Mathlib

/-!
Verification development for the HyMD supporting components: rank-aware
logging setup, bonded-topology construction and harmonic bond/angle force
evaluation under periodic boundary conditions, and the CSVR thermostat.
Python floating-point values are modelled as exact rationals; the
transcendental operations (square root, exponential) that the code takes
from numpy are modelled as explicit function parameters, so every theorem
below holds for the actual numeric backends as a special case.
-/

namespace HyMD

/-! ## Shared numeric model -/

/-- Three-component vectors of rationals, modelling numpy float64 triples. -/
abbrev Vec3 := ℚ × ℚ × ℚ

def vzero : Vec3 := (0, 0, 0)

/-- Componentwise scalar division, modelling numpy broadcast `v / q`.
Division by zero inherits the total junk-value convention of `ℚ`. -/
def vdiv (v : Vec3) (q : ℚ) : Vec3 := (v.1 / q, v.2.1 / q, v.2.2 / q)

/-- Euclidean inner product, modelling `np.dot`. -/
def dot (v w : Vec3) : ℚ := v.1 * w.1 + v.2.1 * w.2.1 + v.2.2 * w.2.2

/-- Component access by Cartesian dimension. -/
def Vec3.nth (v : Vec3) (d : Fin 3) : ℚ :=
  if d = 0 then v.1 else if d = 1 then v.2.1 else v.2.2

/-- The vector that is `q` in dimension `d` and `0` elsewhere. -/
def dimVec (d : Fin 3) (q : ℚ) : Vec3 :=
  if d = 0 then (q, 0, 0) else if d = 1 then (0, q, 0) else (0, 0, q)

/-- Banker's rounding of numpy's `np.around`: round to the nearest integer,
ties going to the even integer. -/
def npAround (q : ℚ) : ℤ :=
  if Int.fract q < 1/2 then ⌊q⌋
  else if 1/2 < Int.fract q then ⌊q⌋ + 1
  else if ⌊q⌋ % 2 = 0 then ⌊q⌋ else ⌊q⌋ + 1

/-- Minimum-image wrapping of one coordinate difference, as in
`rij[d] -= box_size[d] * np.around(rij[d] / box_size[d])`. -/
def minImage (x L : ℚ) : ℚ := x - L * npAround (x / L)

/-- Componentwise minimum-image wrapping of a displacement vector. -/
def wrap (v box : Vec3) : Vec3 :=
  (minImage v.1 box.1, minImage v.2.1 box.2.1, minImage v.2.2 box.2.2)

theorem npAround_add_int (q : ℚ) (t : ℤ) (h : Int.fract q ≠ 1/2) :
    npAround (q + t) = npAround q + t := by
  unfold npAround
  rw [Int.fract_add_int, Int.floor_add_int]
  rcases lt_or_gt_of_ne h with hlt | hgt
  · rw [if_pos hlt, if_pos hlt]
  · rw [if_neg (not_lt.mpr hgt.le), if_neg (not_lt.mpr hgt.le),
      if_pos hgt, if_pos hgt]
    ring

/-- At a rounding tie the wrapped coordinate is half a box length in
absolute value. -/
theorem minImage_tie (x L : ℚ) (hL : L ≠ 0) (h : Int.fract (x / L) = 1/2) :
    minImage x L = L / 2 ∨ minImage x L = -(L / 2) := by
  have hfr : x / L - (⌊x / L⌋ : ℚ) = 1/2 := h
  have hdm : x / L * L = x := div_mul_cancel₀ x hL
  have hx : x = L * ⌊x / L⌋ + L / 2 := by
    have h2 : x / L = (⌊x / L⌋ : ℚ) + 1/2 := by linarith
    have h3 : x / L * L = ((⌊x / L⌋ : ℚ) + 1/2) * L := by nth_rewrite 1 [h2]; rfl
    rw [hdm] at h3
    linear_combination h3
  unfold minImage npAround
  rw [h]
  rw [if_neg (by norm_num), if_neg (by norm_num)]
  by_cases hpar : ⌊x / L⌋ % 2 = 0
  · left
    rw [if_pos hpar]
    linarith
  · right
    rw [if_neg hpar]
    push_cast
    linarith

theorem minImage_add_int_mul (x L : ℚ) (t : ℤ)
    (h : Int.fract (x / L) ≠ 1/2) :
    minImage (x + t * L) L = minImage x L := by
  by_cases hL : L = 0
  · simp [hL]
  · have hdiv : (x + t * L) / L = x / L + t := by field_simp
    unfold minImage
    rw [hdiv, npAround_add_int _ _ h]
    push_cast
    ring

/-- Translating a coordinate by a whole number of box lengths never changes
the square of the wrapped coordinate, tie or no tie. -/
theorem minImage_sq_add_int_mul (x L : ℚ) (t : ℤ) :
    minImage (x + t * L) L ^ 2 = minImage x L ^ 2 := by
  by_cases hL : L = 0
  · simp [hL]
  by_cases h : Int.fract (x / L) = 1/2
  · have h' : Int.fract ((x + t * L) / L) = 1/2 := by
      have hdiv : (x + t * L) / L = x / L + t := by field_simp
      rw [hdiv, Int.fract_add_int, h]
    rcases minImage_tie x L hL h with h1 | h1 <;>
      rcases minImage_tie (x + t * L) L hL h' with h2 | h2 <;>
        rw [h1, h2] <;> ring
  · rw [minImage_add_int_mul x L t h]

end HyMD

/-! ## Diagnostic logging facility (hPF/logger.py) -/

namespace HyMD.Logger

/-- The message part of the log format, verbatim from `Logger.format`. -/
def format : String :=
  "%(levelname)-8s [%(filename)s:%(lineno)d] <%(funcName)s> %(message)s"

/-- The timestamp part, verbatim from `Logger.date_format`. -/
def date_format : String := "%(asctime)s,%(msecs)d"

/-- The full formatter string: `logging.Formatter(fmt=date_format + format)`. -/
def formatter_fmt : String := date_format ++ format

/-- The line format claimed by the specification: timestamp, comma,
millisecond field, a space, the 8-character-padded level, then the
bracketed location, function and message. -/
def claimed_line_format : String :=
  "%(asctime)s,%(msecs)d %(levelname)-8s [%(filename)s:%(lineno)d] <%(funcName)s> %(message)s"

/-- Kind of an attached sink: a file handler with its path, or the
stdout stream handler. -/
inductive SinkKind
  | file (path : String)
  | stdout
deriving DecidableEq

/-- An attached handler: sink kind, severity threshold and format string. -/
structure Handler where
  kind : SinkKind
  level : ℕ
  fmt : String
deriving DecidableEq

/-- One named logging channel: optional severity threshold, number of
attached rank filters, and attached handlers. -/
structure Channel where
  level : Option ℕ
  filters : ℕ
  handlers : List Handler
deriving DecidableEq

/-- Process-wide logger state: the `Logger` class attributes `level` and
`log_file` plus the two named channels. -/
structure State where
  level : Option ℕ
  log_file : Option String
  rank0 : Channel
  all_ranks : Channel
deriving DecidableEq

def initialChannel : Channel := { level := none, filters := 0, handlers := [] }

def initialState : State :=
  { level := none, log_file := none,
    rank0 := initialChannel, all_ranks := initialChannel }

/-- Numeric value of `logging.INFO`, the default severity. -/
def INFO : ℕ := 20

/-- Python truthiness of the `log_file` argument: `None` and the empty
string are falsy. -/
def truthy : Option String → Bool
  | none => false
  | some s => !s.isEmpty

/-- Append the same handler to both channels, as the sink-attachment code
does for the file handler and for the stdout handler. -/
def addHandlerBoth (s : State) (h : Handler) : State :=
  { s with
    rank0 := { s.rank0 with handlers := s.rank0.handlers ++ [h] }
    all_ranks := { s.all_ranks with handlers := s.all_ranks.handlers ++ [h] } }

/-- `Logger.setup`: record level and log file, set both channel thresholds,
add an `MPIFilter` to the rank-zero channel, return early when neither a
truthy file path nor stdout streaming is requested, otherwise attach the
requested sinks (formatted with `formatter_fmt`) to both channels. -/
def setup (default_level : ℕ) (log_file : Option String)
    (log_to_stdout : Bool) (s : State) : State :=
  let s1 : State :=
    { s with
      level := some default_level
      log_file := log_file
      rank0 :=
        { s.rank0 with
          level := some default_level
          filters := s.rank0.filters + 1 }
      all_ranks := { s.all_ranks with level := some default_level } }
  if !truthy log_file && !log_to_stdout then s1
  else
    let s2 := match log_file with
      | some p =>
          if p.isEmpty then s1
          else addHandlerBoth s1
            { kind := SinkKind.file p, level := default_level,
              fmt := formatter_fmt }
      | none => s1
    if log_to_stdout then
      addHandlerBoth s2
        { kind := SinkKind.stdout, level := default_level,
          fmt := formatter_fmt }
    else s2

end HyMD.Logger

/-! ## Claims C6 and C9: logger setup -/

/-- C6 counterexample: the actual formatter string concatenates
`date_format` and `format` with no separating space between the
millisecond field and the severity level, so it differs from the
claimed line format. -/
theorem c6_counterexample :
    HyMD.Logger.formatter_fmt ≠ HyMD.Logger.claimed_line_format := by
  decide

/-- C6 (amended): when a log file path is given and stdout streaming is
requested, a file sink and a console sink with the identical format
`formatter_fmt` are attached to both channels, and `formatter_fmt` is the
timestamp, a comma, the millisecond field, then immediately (with no
separating space) the severity level left-justified in 8 characters,
then the bracketed location, function and message. -/
theorem c6_log_format (s : HyMD.Logger.State) (lvl : ℕ) (p : String)
    (hp : p.isEmpty = false) :
    (HyMD.Logger.setup lvl (some p) true s).rank0.handlers
      = s.rank0.handlers ++
        [{ kind := HyMD.Logger.SinkKind.file p, level := lvl,
           fmt := HyMD.Logger.formatter_fmt },
         { kind := HyMD.Logger.SinkKind.stdout, level := lvl,
           fmt := HyMD.Logger.formatter_fmt }] ∧
    (HyMD.Logger.setup lvl (some p) true s).all_ranks.handlers
      = s.all_ranks.handlers ++
        [{ kind := HyMD.Logger.SinkKind.file p, level := lvl,
           fmt := HyMD.Logger.formatter_fmt },
         { kind := HyMD.Logger.SinkKind.stdout, level := lvl,
           fmt := HyMD.Logger.formatter_fmt }] ∧
    HyMD.Logger.formatter_fmt
      = "%(asctime)s,%(msecs)d%(levelname)-8s [%(filename)s:%(lineno)d] <%(funcName)s> %(message)s" := by
  refine ⟨?_, ?_, by decide⟩ <;>
    simp [HyMD.Logger.setup, HyMD.Logger.truthy, HyMD.Logger.addHandlerBoth, hp]

theorem c6_log_format_witness :
    (HyMD.Logger.setup HyMD.Logger.INFO (some "sim.log") true
        HyMD.Logger.initialState).rank0.handlers
      = HyMD.Logger.initialState.rank0.handlers ++
        [{ kind := HyMD.Logger.SinkKind.file "sim.log",
           level := HyMD.Logger.INFO, fmt := HyMD.Logger.formatter_fmt },
         { kind := HyMD.Logger.SinkKind.stdout,
           level := HyMD.Logger.INFO, fmt := HyMD.Logger.formatter_fmt }] ∧
    (HyMD.Logger.setup HyMD.Logger.INFO (some "sim.log") true
        HyMD.Logger.initialState).all_ranks.handlers
      = HyMD.Logger.initialState.all_ranks.handlers ++
        [{ kind := HyMD.Logger.SinkKind.file "sim.log",
           level := HyMD.Logger.INFO, fmt := HyMD.Logger.formatter_fmt },
         { kind := HyMD.Logger.SinkKind.stdout,
           level := HyMD.Logger.INFO, fmt := HyMD.Logger.formatter_fmt }] ∧
    HyMD.Logger.formatter_fmt
      = "%(asctime)s,%(msecs)d%(levelname)-8s [%(filename)s:%(lineno)d] <%(funcName)s> %(message)s" :=
  c6_log_format HyMD.Logger.initialState HyMD.Logger.INFO "sim.log" (by decide)

/-- C9 counterexample: calling setup with no file path and stdout disabled
does modify channel state beyond the severity thresholds: it appends a
rank filter to the rank-zero channel. -/
theorem c9_counterexample :
    (HyMD.Logger.setup HyMD.Logger.INFO none false
        HyMD.Logger.initialState).rank0.filters
      ≠ HyMD.Logger.initialState.rank0.filters := by
  decide

/-- C9 (amended): calling setup with no file path and stdout streaming
disabled sets the severity thresholds of both channels, records the level
and (absent) file path on the logger, and appends one rank filter to the
rank-zero channel; no sinks are attached and nothing else changes. -/
theorem c9_no_sink_frame (s : HyMD.Logger.State) (lvl : ℕ) :
    HyMD.Logger.setup lvl none false s =
      { s with
        level := some lvl
        log_file := none
        rank0 := { s.rank0 with level := some lvl, filters := s.rank0.filters + 1 }
        all_ranks := { s.all_ranks with level := some lvl } } := by
  rfl

/-! ## Topology construction (hymd/force.py, prepare_bonds_old) -/

namespace HyMD.Force

/-- Two-body interaction definition from configuration. -/
structure Bond where
  atom_1 : String
  atom_2 : String
  equilibrium : ℚ
  strength : ℚ
deriving DecidableEq

/-- Three-body interaction definition; the dataclass extends `Bond` with a
third type name, so `atom_3` comes after the inherited fields. -/
structure Angle where
  atom_1 : String
  atom_2 : String
  equilibrium : ℚ
  strength : ℚ
  atom_3 : String
deriving DecidableEq

/-- The slice of the configuration consumed by bonded-list construction. -/
structure Config where
  bonds : List Bond
  angle_bonds : List Angle
deriving DecidableEq

/-- An emitted two-body entry `[local_i, local_j, equilibrium, strength]`. -/
structure Bond2Entry where
  i : ℕ
  j : ℕ
  equilibrium : ℚ
  strength : ℚ
deriving DecidableEq

/-- An emitted three-body entry
`[local_i, local_mid, local_j, radians(equilibrium), strength]`; the
stored equilibrium lives in the scalar type `S` produced by the
`np.radians` conversion. -/
structure Bond3Entry (S : Type) where
  i : ℕ
  mid : ℕ
  j : ℕ
  equilibrium : S
  strength : ℚ
deriving DecidableEq

/-- `np.unique`: ascending sorted list of the distinct molecule ids. -/
def insertSorted (x : ℤ) : List ℤ → List ℤ
  | [] => [x]
  | y :: ys => if x ≤ y then x :: y :: ys else y :: insertSorted x ys

def sortInts (l : List ℤ) : List ℤ := l.foldr insertSorted []

def npUnique (l : List ℤ) : List ℤ := (sortInts l).dedup

/-- Local indices of the particles belonging to molecule `mol`; the loop
runs over `enumerate(indices)` and skips rows of other molecules. -/
def molLocals (molecules : List ℤ) (indices : List ℤ) (mol : ℤ) : List ℕ :=
  (List.range indices.length).filter
    (fun li => decide (molecules.getD li 0 = mol))

/-- Undirected edges of the molecule graph: one `(global, partner)` pair
per non-sentinel slot of each member's bond row. -/
def molEdges (molecules : List ℤ) (bonds : List (List ℤ)) (indices : List ℤ)
    (mol : ℤ) : List (ℤ × ℤ) :=
  (molLocals molecules indices mol).flatMap
    (fun li =>
      ((bonds.getD li []).filter (fun b => decide (b ≠ -1))).map
        (fun b => (indices.getD li 0, b)))

/-- Graph adjacency (the graph is undirected, so either orientation of a
recorded edge counts). -/
def adjacent (edges : List (ℤ × ℤ)) (g1 g2 : ℤ) : Bool :=
  edges.any (fun e =>
    decide (e.1 = g1 ∧ e.2 = g2) || decide (e.1 = g2 ∧ e.2 = g1))

/-- The intermediate node of a two-hop shortest path: the first molecule
member adjacent to both endpoints. -/
def commonNeighbor (edges : List (ℤ × ℤ)) (locs : List ℕ)
    (indices : List ℤ) (g1 g2 : ℤ) : Option ℕ :=
  locs.find? (fun lm =>
    adjacent edges g1 (indices.getD lm 0)
      && adjacent edges (indices.getD lm 0) g2)

/-- Match test of the two-body scan, with both disjuncts transcribed as
the source writes them (`match_backward` repeats the forward test). -/
def bondMatch (name_i name_j : String) (b : Bond) : Prop :=
  (name_i = b.atom_1 ∧ name_j = b.atom_2) ∨
    (name_j = b.atom_2 ∧ name_i = b.atom_1)

instance (name_i name_j : String) (b : Bond) :
    Decidable (bondMatch name_i name_j b) := by
  unfold bondMatch; infer_instance

/-- Match test of the three-body scan: forward or fully reversed. -/
def angleMatch (name_i name_mid name_j : String) (a : Angle) : Prop :=
  (name_i = a.atom_1 ∧ name_mid = a.atom_2 ∧ name_j = a.atom_3) ∨
    (name_i = a.atom_3 ∧ name_mid = a.atom_2 ∧ name_j = a.atom_1)

instance (name_i name_mid name_j : String) (a : Angle) :
    Decidable (angleMatch name_i name_mid name_j a) := by
  unfold angleMatch; infer_instance

/-- Two-body entries produced for one molecule: for every node pair whose
shortest path has length 2 (directly bonded) with the larger global index
second, scan `config.bonds` and append an entry for each definition whose
match test fires. -/
def molBonds2 (names : List String) (config : Config)
    (edges : List (ℤ × ℤ)) (locs : List ℕ) (indices : List ℤ) :
    List Bond2Entry :=
  locs.flatMap (fun li =>
    locs.flatMap (fun lj =>
      let gi := indices.getD li 0
      let gj := indices.getD lj 0
      if gi < gj ∧ adjacent edges gi gj then
        config.bonds.filterMap (fun b =>
          if bondMatch (names.getD li "") (names.getD lj "") b then
            some { i := li, j := lj, equilibrium := b.equilibrium,
                   strength := b.strength }
          else none)
      else []))

/-- Three-body entries produced for one molecule: for every node pair
whose shortest path has length 3 (distance two, so not adjacent but with
a common neighbor) with the larger global index second, scan
`config.angle_bonds` and append an entry for each matching definition,
storing the equilibrium converted by `radians`. -/
def molBonds3 (S : Type) (radians : ℚ → S) (names : List String)
    (config : Config) (edges : List (ℤ × ℤ)) (locs : List ℕ)
    (indices : List ℤ) : List (Bond3Entry S) :=
  locs.flatMap (fun li =>
    locs.flatMap (fun lj =>
      let gi := indices.getD li 0
      let gj := indices.getD lj 0
      if gi < gj ∧ ¬adjacent edges gi gj then
        match commonNeighbor edges locs indices gi gj with
        | some lm =>
            config.angle_bonds.filterMap (fun a =>
              if angleMatch (names.getD li "") (names.getD lm "")
                  (names.getD lj "") a then
                some { i := li, mid := lm, j := lj,
                       equilibrium := radians a.equilibrium,
                       strength := a.strength }
              else none)
        | none => []
      else []))

/-- `prepare_bonds_old`: per distinct molecule id, build the molecule
graph and collect the two-body and three-body entries. Bond partners are
assumed to belong to the same molecule (the code would fail on node
attribute lookup otherwise). -/
def prepare_bonds_old (S : Type) (radians : ℚ → S) (molecules : List ℤ)
    (names : List String) (bonds : List (List ℤ)) (indices : List ℤ)
    (config : Config) : List Bond2Entry × List (Bond3Entry S) :=
  ((npUnique molecules).flatMap (fun mol =>
      molBonds2 names config (molEdges molecules bonds indices mol)
        (molLocals molecules indices mol) indices),
   (npUnique molecules).flatMap (fun mol =>
      molBonds3 S radians names config (molEdges molecules bonds indices mol)
        (molLocals molecules indices mol) indices))

end HyMD.Force

/-! ## Fixtures (test/conftest.py) and claims C1-C4 -/

namespace HyMD.Force

/-- Molecule ids of the single-lipid (DPPC) fixture. -/
def dppcMolecules : List ℤ := [0, 0, 0, 0, 0, 0, 0, 0, 0, 0, 0, 0]

/-- Global particle indices of the DPPC fixture. -/
def dppcIndices : List ℤ := [0, 1, 2, 3, 4, 5, 6, 7, 8, 9, 10, 11]

/-- Type names of the DPPC fixture. -/
def dppcNames : List String :=
  ["N", "P", "G", "G", "C", "C", "C", "C", "C", "C", "C", "C"]

/-- Fixed-width bond rows of the DPPC fixture (sentinel -1). -/
def dppcBonds : List (List ℤ) :=
  [[1, -1, -1], [0, 2, -1], [1, 3, 4], [2, 8, -1], [2, 5, -1], [4, 6, -1],
   [5, 7, -1], [6, -1, -1], [3, 9, -1], [8, 10, -1], [9, 11, -1],
   [10, -1, -1]]

/-- The five two-body and four three-body definitions of the DPPC
fixture's configuration. -/
def dppcConfig : Config :=
  { bonds :=
      [{ atom_1 := "N", atom_2 := "P", equilibrium := 0.47, strength := 1250 },
       { atom_1 := "P", atom_2 := "G", equilibrium := 0.47, strength := 1250 },
       { atom_1 := "G", atom_2 := "G", equilibrium := 0.37, strength := 1250 },
       { atom_1 := "G", atom_2 := "C", equilibrium := 0.47, strength := 1250 },
       { atom_1 := "C", atom_2 := "C", equilibrium := 0.47, strength := 1250 }]
    angle_bonds :=
      [{ atom_1 := "P", atom_2 := "G", atom_3 := "G",
         equilibrium := 120, strength := 25 },
       { atom_1 := "P", atom_2 := "G", atom_3 := "C",
         equilibrium := 180, strength := 25 },
       { atom_1 := "G", atom_2 := "C", atom_3 := "C",
         equilibrium := 180, strength := 25 },
       { atom_1 := "C", atom_2 := "C", atom_3 := "C",
         equilibrium := 180, strength := 25 }] }

/-- The three-body list of the DPPC fixture, for an arbitrary radian
conversion: one P-G-G angle at 120 degrees and seven 180-degree angles. -/
theorem dppc_bonds3_generic (S : Type) (radians : ℚ → S) :
    (prepare_bonds_old S radians dppcMolecules dppcNames dppcBonds
        dppcIndices dppcConfig).2 =
      [{ i := 1, mid := 2, j := 3, equilibrium := radians 120, strength := 25 },
       { i := 1, mid := 2, j := 4, equilibrium := radians 180, strength := 25 },
       { i := 2, mid := 4, j := 5, equilibrium := radians 180, strength := 25 },
       { i := 3, mid := 8, j := 9, equilibrium := radians 180, strength := 25 },
       { i := 4, mid := 5, j := 6, equilibrium := radians 180, strength := 25 },
       { i := 5, mid := 6, j := 7, equilibrium := radians 180, strength := 25 },
       { i := 8, mid := 9, j := 10, equilibrium := radians 180, strength := 25 },
       { i := 9, mid := 10, j := 11, equilibrium := radians 180, strength := 25 }] :=
  rfl

theorem rad120 : ((120 : ℚ) : ℝ) * Real.pi / 180 = 2 * Real.pi / 3 := by
  push_cast
  ring

theorem rad180 : ((180 : ℚ) : ℝ) * Real.pi / 180 = Real.pi := by
  push_cast
  ring

end HyMD.Force

/-- C3: on the single-lipid DPPC fixture, bonded-list construction emits
exactly 11 two-body entries (one per explicit bond edge), and every
emitted three-body entry stores its equilibrium as the configured degree
value converted to radians, so 120 degrees becomes 2*pi/3 and 180 degrees
becomes pi. -/
theorem c3_dppc_topology :
    (HyMD.Force.prepare_bonds_old ℝ (fun d => (d : ℝ) * Real.pi / 180)
        HyMD.Force.dppcMolecules HyMD.Force.dppcNames HyMD.Force.dppcBonds
        HyMD.Force.dppcIndices HyMD.Force.dppcConfig).1.length = 11 ∧
    ∀ e ∈ (HyMD.Force.prepare_bonds_old ℝ (fun d => (d : ℝ) * Real.pi / 180)
        HyMD.Force.dppcMolecules HyMD.Force.dppcNames HyMD.Force.dppcBonds
        HyMD.Force.dppcIndices HyMD.Force.dppcConfig).2,
      e.equilibrium = 2 * Real.pi / 3 ∨ e.equilibrium = Real.pi := by
  constructor
  · rfl
  · intro e he
    rw [HyMD.Force.dppc_bonds3_generic] at he
    simp only [List.mem_cons, List.mem_singleton, List.not_mem_nil, or_false] at he
    rcases he with h | h | h | h | h | h | h | h <;> subst h
    · exact Or.inl HyMD.Force.rad120
    all_goals exact Or.inr HyMD.Force.rad180

namespace HyMD.Force

/-- Global indices of the three-atom fixture. -/
def three_atoms_indices : List ℤ := [0, 1, 2]

/-- Molecule ids of the three-atom fixture: three one-particle molecules. -/
def three_atoms_molecules : List ℤ := [0, 1, 2]

/-- Type names of the three-atom fixture. -/
def three_atoms_names : List String := ["A", "B", "C"]

/-- Modelled from numpy semantics: `ndarray.fill` mutates its receiver in
place and returns `None`, so an expression of the shape
`np.empty(shape, dtype=int).fill(value)` evaluates to `None`, not to the
filled array. -/
def ndarrayEmptyFill (rows cols : ℕ) (value : ℤ) : Option (List (List ℤ)) :=
  none

/-- The fixture's bond-array expression
`np.empty(shape=(3, 3), dtype=int).fill(-1)`. -/
def three_atoms_bonds : Option (List (List ℤ)) := ndarrayEmptyFill 3 3 (-1)

/-- The bond array the fixture intends: 3 rows of sentinel -1 slots. -/
def three_atoms_bonds_intended : List (List ℤ) :=
  [[-1, -1, -1], [-1, -1, -1], [-1, -1, -1]]

end HyMD.Force

/-- C4: the three-atom fixture's bond array expression actually evaluates
to `None` (the `ndarray.fill` slip), so the construction cannot run on it
as written; on the intended all-sentinel bond array, bonded-list
construction returns empty two-body and three-body lists for every
configuration and every radian conversion. -/
theorem c4_three_atoms_empty :
    HyMD.Force.three_atoms_bonds = none ∧
    ∀ (S : Type) (radians : ℚ → S) (config : HyMD.Force.Config),
      HyMD.Force.prepare_bonds_old S radians HyMD.Force.three_atoms_molecules
        HyMD.Force.three_atoms_names HyMD.Force.three_atoms_bonds_intended
        HyMD.Force.three_atoms_indices config = ([], []) :=
  ⟨rfl, fun _ _ _ => rfl⟩

namespace HyMD.Force

/-- A configuration whose single two-body definition matches the bonded
pair only in reversed order: the pair's names are ("B", "A") while the
definition is (atom_1 = "A", atom_2 = "B"). -/
def c1Config : Config :=
  { bonds := [{ atom_1 := "A", atom_2 := "B", equilibrium := 1/2,
                strength := 100 }]
    angle_bonds := [] }

/-- The same definition in forward order. -/
def c1ConfigForward : Config :=
  { bonds := [{ atom_1 := "B", atom_2 := "A", equilibrium := 1/2,
                strength := 100 }]
    angle_bonds := [] }

end HyMD.Force

/-- C1: for the directly bonded pair with type names ("B", "A") and the
configured definition (atom_1 = "A", atom_2 = "B") - a reversed-order
match - NO two-body entry is emitted, because the source's
`match_backward` expression repeats the forward test instead of swapping
the roles of atom_1 and atom_2; the same pair with the definition written
in forward order ("B", "A") is emitted, so the miss is attributable to
the reversed-order test alone. -/
theorem c1_reversed_match_missed :
    (HyMD.Force.prepare_bonds_old ℚ id [0, 0] ["B", "A"] [[1], [0]] [0, 1]
        HyMD.Force.c1Config).1 = [] ∧
    (HyMD.Force.prepare_bonds_old ℚ id [0, 0] ["B", "A"] [[1], [0]] [0, 1]
        HyMD.Force.c1ConfigForward).1
      = [{ i := 0, j := 1, equilibrium := 1/2, strength := 100 }] :=
  ⟨rfl, rfl⟩

namespace HyMD.Force

/-- A filterMap whose function is an if-some-else-none is the map of the
filter. -/
theorem filterMap_if_eq_filter_map {α β : Type} (p : α → Prop)
    [DecidablePred p] (g : α → β) (l : List α) :
    l.filterMap (fun a => if p a then some (g a) else none)
      = (l.filter (fun a => decide (p a))).map g := by
  induction l with
  | nil => rfl
  | cons a t ih => by_cases h : p a <;> simp [h, ih]

/-- The two-body definitions matching a directly bonded pair, in
configuration scan order. -/
def matchingBonds (name_i name_j : String) (config : Config) : List Bond :=
  config.bonds.filter (fun b => decide (bondMatch name_i name_j b))

/-- The three-body definitions matching an angle triple, in configuration
scan order. -/
def matchingAngles (name_i name_mid name_j : String) (config : Config) :
    List Angle :=
  config.angle_bonds.filter
    (fun a => decide (angleMatch name_i name_mid name_j a))

/-- A configuration with two definitions matching the same A-B pair. -/
def c2Config : Config :=
  { bonds := [{ atom_1 := "A", atom_2 := "B", equilibrium := 1, strength := 10 },
              { atom_1 := "A", atom_2 := "B", equilibrium := 2, strength := 20 }]
    angle_bonds := [] }

end HyMD.Force

/-- C2 counterexample: with two configured definitions matching the single
directly bonded A-B pair, two two-body entries are emitted (one per
matching definition), not exactly one from the first match. -/
theorem c2_counterexample :
    (HyMD.Force.prepare_bonds_old ℚ id [0, 0] ["A", "B"] [[1], [0]] [0, 1]
        HyMD.Force.c2Config).1
      = [{ i := 0, j := 1, equilibrium := 1, strength := 10 },
         { i := 0, j := 1, equilibrium := 2, strength := 20 }] ∧
    (HyMD.Force.prepare_bonds_old ℚ id [0, 0] ["A", "B"] [[1], [0]] [0, 1]
        HyMD.Force.c2Config).1.length ≠ 1 :=
  ⟨rfl, by decide⟩

/-- C2 (amended): when several configured definitions match a directly
bonded pair (or an angle triple), one entry is emitted per matching
definition, in configuration scan order - so the first matching
definition's entry is emitted first, but later matching definitions are
emitted too, not suppressed. Stated on a two-particle bonded molecule and
a three-particle chain molecule with arbitrary type names and an
arbitrary configuration. -/
theorem c2_all_matches_emitted (config : HyMD.Force.Config)
    (n1 n2 n3 : String) :
    (HyMD.Force.prepare_bonds_old ℚ id [0, 0] [n1, n2] [[1], [0]] [0, 1]
        config).1
      = (HyMD.Force.matchingBonds n1 n2 config).map
          (fun b => { i := 0, j := 1, equilibrium := b.equilibrium,
                      strength := b.strength }) ∧
    (HyMD.Force.prepare_bonds_old ℚ id [0, 0, 0] [n1, n2, n3]
        [[1], [0, 2], [1]] [0, 1, 2] config).2
      = (HyMD.Force.matchingAngles n1 n2 n3 config).map
          (fun a => { i := 0, mid := 1, j := 2,
                      equilibrium := a.equilibrium,
                      strength := a.strength }) := by
  constructor
  · have h1 : (HyMD.Force.prepare_bonds_old ℚ id [0, 0] [n1, n2] [[1], [0]]
        [0, 1] config).1
        = ((config.bonds.filterMap (fun b =>
            if HyMD.Force.bondMatch n1 n2 b then
              some { i := 0, j := 1, equilibrium := b.equilibrium,
                     strength := b.strength }
            else none) ++ []) ++ []) ++ [] := rfl
    rw [h1]
    simp only [List.append_nil]
    exact HyMD.Force.filterMap_if_eq_filter_map _ _ _
  · have h2 : (HyMD.Force.prepare_bonds_old ℚ id [0, 0, 0] [n1, n2, n3]
        [[1], [0, 2], [1]] [0, 1, 2] config).2
        = ((config.angle_bonds.filterMap (fun a =>
            if HyMD.Force.angleMatch n1 n2 n3 a then
              some { i := 0, mid := 1, j := 2,
                     equilibrium := a.equilibrium, strength := a.strength }
            else none) ++ []) ++ []) ++ [] := rfl
    rw [h2]
    simp only [List.append_nil]
    exact HyMD.Force.filterMap_if_eq_filter_map _ _ _

/-! ## Two-body bond forces (hymd/force.py, compute_bond_forces) -/

namespace HyMD.Force

open HyMD

/-- One iteration of the pair loop shared by `compute_bond_forces__plain`
and `compute_bond_forces__numba` (the two variants run the identical
algorithm): wrap the displacement by the minimum-image convention,
accumulate the pair force into both atoms' rows, add the pair energy.
`sqrt` models the square root used by `np.linalg.norm`. -/
def cbfStep (sqrt : ℚ → ℚ) (r : List Vec3) (box : Vec3)
    (acc : List Vec3 × ℚ) (e : Bond2Entry) : List Vec3 × ℚ :=
  let ri := r.getD e.i vzero
  let rj := r.getD e.j vzero
  let rij := wrap (rj - ri) box
  let dr := sqrt (dot rij rij)
  let df := -e.strength * (dr - e.equilibrium)
  let fv := vdiv (df • rij) dr
  let f1 := acc.1.set e.i (acc.1.getD e.i vzero - fv)
  let f2 := f1.set e.j (f1.getD e.j vzero + fv)
  (f2, acc.2 + 1/2 * e.strength * (dr - e.equilibrium) ^ 2)

/-- `compute_bond_forces__plain`: zero the force array, run the pair loop
over the two-body list, return the final force array and total energy. -/
def compute_bond_forces (sqrt : ℚ → ℚ) (f_bonds r : List Vec3)
    (bonds_2 : List Bond2Entry) (box : Vec3) : List Vec3 × ℚ :=
  bonds_2.foldl (cbfStep sqrt r box) (f_bonds.map (fun _ => vzero), 0)

/-- The energy accumulated by the pair loop does not depend on the force
accumulator. -/
theorem foldl_cbfStep_energy (sqrt : ℚ → ℚ) (r : List Vec3) (box : Vec3)
    (l : List Bond2Entry) (acc : List Vec3 × ℚ) :
    (l.foldl (cbfStep sqrt r box) acc).2
      = l.foldl (fun en e =>
          en + 1/2 * e.strength *
            (sqrt (dot (wrap (r.getD e.j vzero - r.getD e.i vzero) box)
                (wrap (r.getD e.j vzero - r.getD e.i vzero) box))
              - e.equilibrium) ^ 2) acc.2 := by
  induction l generalizing acc with
  | nil => rfl
  | cons e t ih => exact ih _

/-- Position array after translating atom `m` by the vector `tv`. -/
def translateAt (r : List Vec3) (m : ℕ) (tv : Vec3) : List Vec3 :=
  r.set m (r.getD m vzero + tv)

theorem getD_translateAt_self (r : List Vec3) (m : ℕ) (tv : Vec3)
    (hm : m < r.length) :
    (translateAt r m tv).getD m vzero = r.getD m vzero + tv := by
  unfold translateAt
  rw [List.getD_eq_getElem?_getD, List.getElem?_set_eq_of_lt _ hm]
  rfl

theorem getD_translateAt_ne (r : List Vec3) (m n : ℕ) (tv : Vec3)
    (h : n ≠ m) :
    (translateAt r m tv).getD n vzero = r.getD n vzero := by
  unfold translateAt
  rw [List.getD_eq_getElem?_getD, List.getElem?_set_ne (Ne.symm h),
    ← List.getD_eq_getElem?_getD]

theorem sub_dimVec (v : Vec3) (d : Fin 3) (q : ℚ) :
    v - HyMD.dimVec d q = v + HyMD.dimVec d (-q) := by
  obtain ⟨v1, v2, v3⟩ := v
  fin_cases d <;> simp [HyMD.dimVec, Prod.ext_iff] <;> ring

theorem wrap_add_dimVec (v box : Vec3) (d : Fin 3) (t : ℤ)
    (hnt : Int.fract (Vec3.nth v d / Vec3.nth box d) ≠ 1/2) :
    wrap (v + HyMD.dimVec d ((t : ℚ) * Vec3.nth box d)) box = wrap v box := by
  obtain ⟨v1, v2, v3⟩ := v
  obtain ⟨b1, b2, b3⟩ := box
  fin_cases d
  · simp only [Vec3.nth] at hnt ⊢
    simp only [HyMD.dimVec, wrap, Prod.mk_add_mk, add_zero,
      Prod.mk.injEq] at hnt ⊢
    refine ⟨?_, by simp, by simp⟩
    simpa using minImage_add_int_mul v1 b1 t (by simpa using hnt)
  · simp only [Vec3.nth] at hnt ⊢
    simp only [HyMD.dimVec, wrap, Prod.mk_add_mk, add_zero,
      Prod.mk.injEq] at hnt ⊢
    refine ⟨by simp, ?_, by simp⟩
    simpa using minImage_add_int_mul v2 b2 t (by simpa using hnt)
  · simp only [Vec3.nth] at hnt ⊢
    simp only [HyMD.dimVec, wrap, Prod.mk_add_mk, add_zero,
      Prod.mk.injEq] at hnt ⊢
    refine ⟨by simp, by simp, ?_⟩
    simpa using minImage_add_int_mul v3 b3 t (by simpa using hnt)

theorem dot_wrap_add_dimVec (v box : Vec3) (d : Fin 3) (t : ℤ) :
    dot (wrap (v + HyMD.dimVec d ((t : ℚ) * Vec3.nth box d)) box)
        (wrap (v + HyMD.dimVec d ((t : ℚ) * Vec3.nth box d)) box)
      = dot (wrap v box) (wrap v box) := by
  obtain ⟨v1, v2, v3⟩ := v
  obtain ⟨b1, b2, b3⟩ := box
  fin_cases d
  · have h := minImage_sq_add_int_mul v1 b1 t
    rw [pow_two, pow_two] at h
    simp [Vec3.nth, HyMD.dimVec, wrap, dot]
    linarith [h]
  · have h := minImage_sq_add_int_mul v2 b2 t
    rw [pow_two, pow_two] at h
    simp [Vec3.nth, HyMD.dimVec, wrap, dot]
    linarith [h]
  · have h := minImage_sq_add_int_mul v3 b3 t
    rw [pow_two, pow_two] at h
    simp [Vec3.nth, HyMD.dimVec, wrap, dot]
    linarith [h]

/-- The wrapped displacement of a bonded pair after translating atom `m`,
case analysis on whether the pair touches `m`; away from rounding ties the
wrap is unchanged. -/
theorem wrap_sub_translateAt (r : List Vec3) (box : Vec3) (m : ℕ) (d : Fin 3)
    (t : ℤ) (hm : m < r.length) (i j : ℕ)
    (hnt : Int.fract (Vec3.nth (r.getD j vzero - r.getD i vzero) d
        / Vec3.nth box d) ≠ 1/2) :
    wrap ((translateAt r m (HyMD.dimVec d ((t : ℚ) * Vec3.nth box d))).getD j vzero
        - (translateAt r m (HyMD.dimVec d ((t : ℚ) * Vec3.nth box d))).getD i vzero) box
      = wrap (r.getD j vzero - r.getD i vzero) box := by
  by_cases hj : j = m
  · subst hj
    by_cases hi : i = j
    · subst hi
      rw [getD_translateAt_self r i _ hm]
      have harg : r.getD i vzero + HyMD.dimVec d ((t : ℚ) * Vec3.nth box d)
          - (r.getD i vzero + HyMD.dimVec d ((t : ℚ) * Vec3.nth box d))
          = r.getD i vzero - r.getD i vzero := by abel
      rw [harg]
    · rw [getD_translateAt_self r j _ hm,
        getD_translateAt_ne r j i _ fun h => hi h]
      have harg : r.getD j vzero + HyMD.dimVec d ((t : ℚ) * Vec3.nth box d)
          - r.getD i vzero
          = r.getD j vzero - r.getD i vzero
            + HyMD.dimVec d ((t : ℚ) * Vec3.nth box d) := by abel
      rw [harg]
      exact wrap_add_dimVec _ box d t hnt
  · by_cases hi : i = m
    · subst hi
      rw [getD_translateAt_self r i _ hm, getD_translateAt_ne r i j _ hj]
      have hneg : (((-t : ℤ) : ℚ) * Vec3.nth box d)
          = -((t : ℚ) * Vec3.nth box d) := by push_cast; ring
      have harg : r.getD j vzero
          - (r.getD i vzero + HyMD.dimVec d ((t : ℚ) * Vec3.nth box d))
          = r.getD j vzero - r.getD i vzero
            + HyMD.dimVec d (((-t : ℤ) : ℚ) * Vec3.nth box d) := by
        rw [hneg, ← sub_dimVec]
        abel
      rw [harg]
      exact wrap_add_dimVec _ box d (-t) hnt
    · rw [getD_translateAt_ne r m j _ hj, getD_translateAt_ne r m i _ hi]

/-- As `wrap_sub_translateAt` but for the squared length of the wrapped
displacement, which is invariant even at rounding ties. -/
theorem dot_wrap_sub_translateAt (r : List Vec3) (box : Vec3) (m : ℕ)
    (d : Fin 3) (t : ℤ) (hm : m < r.length) (i j : ℕ) :
    dot (wrap ((translateAt r m (HyMD.dimVec d ((t : ℚ) * Vec3.nth box d))).getD j vzero
          - (translateAt r m (HyMD.dimVec d ((t : ℚ) * Vec3.nth box d))).getD i vzero) box)
        (wrap ((translateAt r m (HyMD.dimVec d ((t : ℚ) * Vec3.nth box d))).getD j vzero
          - (translateAt r m (HyMD.dimVec d ((t : ℚ) * Vec3.nth box d))).getD i vzero) box)
      = dot (wrap (r.getD j vzero - r.getD i vzero) box)
          (wrap (r.getD j vzero - r.getD i vzero) box) := by
  by_cases hj : j = m
  · subst hj
    by_cases hi : i = j
    · subst hi
      rw [getD_translateAt_self r i _ hm]
      have harg : r.getD i vzero + HyMD.dimVec d ((t : ℚ) * Vec3.nth box d)
          - (r.getD i vzero + HyMD.dimVec d ((t : ℚ) * Vec3.nth box d))
          = r.getD i vzero - r.getD i vzero := by abel
      rw [harg]
    · rw [getD_translateAt_self r j _ hm,
        getD_translateAt_ne r j i _ fun h => hi h]
      have harg : r.getD j vzero + HyMD.dimVec d ((t : ℚ) * Vec3.nth box d)
          - r.getD i vzero
          = r.getD j vzero - r.getD i vzero
            + HyMD.dimVec d ((t : ℚ) * Vec3.nth box d) := by abel
      rw [harg]
      exact dot_wrap_add_dimVec _ box d t
  · by_cases hi : i = m
    · subst hi
      rw [getD_translateAt_self r i _ hm, getD_translateAt_ne r i j _ hj]
      have hneg : (((-t : ℤ) : ℚ) * Vec3.nth box d)
          = -((t : ℚ) * Vec3.nth box d) := by push_cast; ring
      have harg : r.getD j vzero
          - (r.getD i vzero + HyMD.dimVec d ((t : ℚ) * Vec3.nth box d))
          = r.getD j vzero - r.getD i vzero
            + HyMD.dimVec d (((-t : ℤ) : ℚ) * Vec3.nth box d) := by
        rw [hneg, ← sub_dimVec]
        abel
      rw [harg]
      exact dot_wrap_add_dimVec _ box d (-t)
    · rw [getD_translateAt_ne r m j _ hj, getD_translateAt_ne r m i _ hi]

/-- Away from rounding ties, one loop iteration is unchanged by the
translation. -/
theorem cbfStep_translateAt (sqrt : ℚ → ℚ) (r : List Vec3) (box : Vec3)
    (m : ℕ) (d : Fin 3) (t : ℤ) (hm : m < r.length) (acc : List Vec3 × ℚ)
    (e : Bond2Entry)
    (hnt : Int.fract (Vec3.nth (r.getD e.j vzero - r.getD e.i vzero) d
        / Vec3.nth box d) ≠ 1/2) :
    cbfStep sqrt (translateAt r m (HyMD.dimVec d ((t : ℚ) * Vec3.nth box d)))
        box acc e
      = cbfStep sqrt r box acc e := by
  simp only [cbfStep]
  rw [wrap_sub_translateAt r box m d t hm e.i e.j hnt]

/-- Structurally computable square root stand-in used only for concrete
evaluations; it agrees with the real square root on perfect squares, which
is what the concrete inputs below produce. -/
def natSqrt (n : ℕ) : ℕ :=
  ((List.range (n + 1)).filter (fun k => decide (k * k ≤ n))).length - 1

def ratSqrt (q : ℚ) : ℚ := (natSqrt q.num.toNat : ℚ) / (natSqrt q.den : ℚ)

end HyMD.Force

/-- C5 (amended): translating one atom by any whole number of box lengths
in a single Cartesian dimension never changes the energy returned by
two-body bond force evaluation; the force array is also unchanged provided
no bonded pair sits exactly at a rounding tie in that dimension (wrapped
coordinate at an odd multiple of half the box length). At a tie,
`np.around`'s round-half-to-even makes the wrapped component flip sign
under the translation, which flips the corresponding pair-force component
(see the counterexample), while the pair distance and hence the energy is
still unchanged. Stated for every square-root backend. -/
theorem c5_min_image_invariance (sqrt : ℚ → ℚ) (f r : List HyMD.Vec3)
    (bonds_2 : List HyMD.Force.Bond2Entry) (box : HyMD.Vec3) (m : ℕ)
    (d : Fin 3) (t : ℤ) (hm : m < r.length) :
    (HyMD.Force.compute_bond_forces sqrt f
        (HyMD.Force.translateAt r m
          (HyMD.dimVec d ((t : ℚ) * HyMD.Vec3.nth box d)))
        bonds_2 box).2
      = (HyMD.Force.compute_bond_forces sqrt f r bonds_2 box).2 ∧
    ((∀ e ∈ bonds_2,
        Int.fract (HyMD.Vec3.nth
            (r.getD e.j HyMD.vzero - r.getD e.i HyMD.vzero) d
          / HyMD.Vec3.nth box d) ≠ 1/2) →
      HyMD.Force.compute_bond_forces sqrt f
          (HyMD.Force.translateAt r m
            (HyMD.dimVec d ((t : ℚ) * HyMD.Vec3.nth box d)))
          bonds_2 box
        = HyMD.Force.compute_bond_forces sqrt f r bonds_2 box) := by
  constructor
  · unfold HyMD.Force.compute_bond_forces
    rw [HyMD.Force.foldl_cbfStep_energy, HyMD.Force.foldl_cbfStep_energy]
    apply List.foldl_ext
    intro en e _
    rw [HyMD.Force.dot_wrap_sub_translateAt r box m d t hm e.i e.j]
  · intro hties
    unfold HyMD.Force.compute_bond_forces
    apply List.foldl_ext
    intro acc e he
    exact HyMD.Force.cbfStep_translateAt sqrt r box m d t hm acc e
      (hties e he)


theorem c5_min_image_invariance_witness :
    1 < ([HyMD.vzero, HyMD.vzero] : List HyMD.Vec3).length ∧
    HyMD.Force.compute_bond_forces HyMD.Force.ratSqrt
        [HyMD.vzero, HyMD.vzero]
        (HyMD.Force.translateAt [HyMD.vzero, HyMD.vzero] 1
          (HyMD.dimVec 0
            ((1 : ℤ) * HyMD.Vec3.nth ((2 : ℚ), (3 : ℚ), (5 : ℚ)) 0)))
        [{ i := 0, j := 1, equilibrium := 1, strength := 10 }]
        ((2 : ℚ), (3 : ℚ), (5 : ℚ))
      = HyMD.Force.compute_bond_forces HyMD.Force.ratSqrt
        [HyMD.vzero, HyMD.vzero] [HyMD.vzero, HyMD.vzero]
        [{ i := 0, j := 1, equilibrium := 1, strength := 10 }]
        ((2 : ℚ), (3 : ℚ), (5 : ℚ)) :=
  ⟨by decide,
    (c5_min_image_invariance HyMD.Force.ratSqrt [HyMD.vzero, HyMD.vzero]
      [HyMD.vzero, HyMD.vzero]
      [{ i := 0, j := 1, equilibrium := 1, strength := 10 }]
      ((2 : ℚ), (3 : ℚ), (5 : ℚ)) 1 0 1 (by decide)).2 (by
        intro e he
        simp only [List.mem_singleton] at he
        subst he
        show Int.fract (HyMD.Vec3.nth
            ([HyMD.vzero, HyMD.vzero].getD 1 HyMD.vzero
              - [HyMD.vzero, HyMD.vzero].getD 0 HyMD.vzero) 0
            / HyMD.Vec3.nth ((2 : ℚ), (3 : ℚ), (5 : ℚ)) 0) ≠ 1/2
        norm_num [HyMD.Vec3.nth, HyMD.vzero, Int.fract_zero])⟩

/-- C5 counterexample: atom 1 of the bonded pair (0, 1) sits exactly half
a box length from atom 0 in dimension 0 (displacement 1, box length 2);
translating it by one box length makes `np.around`'s round-half-to-even
pick the other image, flipping the sign of the wrapped component, so the
returned force array changes (the pair force flips direction), refuting
exact force invariance as claimed. -/
theorem c5_counterexample :
    (HyMD.Force.compute_bond_forces HyMD.Force.ratSqrt
        [HyMD.vzero, HyMD.vzero]
        (HyMD.Force.translateAt
          [((0 : ℚ), (0 : ℚ), (0 : ℚ)), ((1 : ℚ), (0 : ℚ), (0 : ℚ))] 1
          (HyMD.dimVec 0
            ((1 : ℤ) * HyMD.Vec3.nth ((2 : ℚ), (10 : ℚ), (10 : ℚ)) 0)))
        [{ i := 0, j := 1, equilibrium := 0, strength := 1 }]
        ((2 : ℚ), (10 : ℚ), (10 : ℚ))).1
      ≠ (HyMD.Force.compute_bond_forces HyMD.Force.ratSqrt
        [HyMD.vzero, HyMD.vzero]
        [((0 : ℚ), (0 : ℚ), (0 : ℚ)), ((1 : ℚ), (0 : ℚ), (0 : ℚ))]
        [{ i := 0, j := 1, equilibrium := 0, strength := 1 }]
        ((2 : ℚ), (10 : ℚ), (10 : ℚ))).1 := by
  have hA0 : HyMD.npAround 0 = 0 := by
    unfold HyMD.npAround
    rw [Int.fract_zero]
    norm_num
  have hA1 : HyMD.npAround ((1:ℚ)/2) = 0 := by
    have hf : (⌊(1:ℚ)/2⌋ : ℤ) = 0 := by
      rw [Int.floor_eq_iff]
      norm_num
    unfold HyMD.npAround
    simp only [Int.fract, hf]
    norm_num
  have hA3 : HyMD.npAround ((3:ℚ)/2) = 2 := by
    have hf : (⌊(3:ℚ)/2⌋ : ℤ) = 1 := by
      rw [Int.floor_eq_iff]
      norm_num
    unfold HyMD.npAround
    simp only [Int.fract, hf]
    norm_num
  have hs1 : HyMD.Force.ratSqrt 1 = 1 := by
    have h1 : HyMD.Force.natSqrt 1 = 1 := by decide
    norm_num [HyMD.Force.ratSqrt, h1]
  have hm0 : ∀ L : ℚ, HyMD.minImage 0 L = 0 := by
    intro L
    unfold HyMD.minImage
    rw [zero_div, hA0]
    norm_num
  have hm1 : HyMD.minImage 1 2 = 1 := by
    unfold HyMD.minImage
    rw [hA1]
    norm_num
  have hm3 : HyMD.minImage 3 2 = -1 := by
    unfold HyMD.minImage
    rw [hA3]
    norm_num
  have htr : HyMD.Force.translateAt
      [((0 : ℚ), (0 : ℚ), (0 : ℚ)), ((1 : ℚ), (0 : ℚ), (0 : ℚ))] 1
      (HyMD.dimVec 0 ((1 : ℤ) * HyMD.Vec3.nth ((2 : ℚ), (10 : ℚ), (10 : ℚ)) 0))
      = [((0 : ℚ), (0 : ℚ), (0 : ℚ)),
         ((1 : ℚ) + (1 : ℤ) * (2 : ℚ), (0 : ℚ) + 0, (0 : ℚ) + 0)] := rfl
  intro hEq
  rw [htr] at hEq
  have h := congrArg (fun l => (l.getD 0 HyMD.vzero).1) hEq
  simp only [] at h
  have hcompL : ((HyMD.Force.compute_bond_forces HyMD.Force.ratSqrt
      [HyMD.vzero, HyMD.vzero]
      [((0 : ℚ), (0 : ℚ), (0 : ℚ)),
       ((1 : ℚ) + (1 : ℤ) * (2 : ℚ), (0 : ℚ) + 0, (0 : ℚ) + 0)]
      [{ i := 0, j := 1, equilibrium := 0, strength := 1 }]
      ((2 : ℚ), (10 : ℚ), (10 : ℚ))).1.getD 0 HyMD.vzero).1
      = 0 - -(1:ℚ) *
          (HyMD.Force.ratSqrt
            (HyMD.minImage ((1 : ℚ) + (1 : ℤ) * (2 : ℚ) - 0) 2 *
                HyMD.minImage ((1 : ℚ) + (1 : ℤ) * (2 : ℚ) - 0) 2 +
              HyMD.minImage ((0 : ℚ) + 0 - 0) 10 *
                HyMD.minImage ((0 : ℚ) + 0 - 0) 10 +
              HyMD.minImage ((0 : ℚ) + 0 - 0) 10 *
                HyMD.minImage ((0 : ℚ) + 0 - 0) 10) - 0) *
          HyMD.minImage ((1 : ℚ) + (1 : ℤ) * (2 : ℚ) - 0) 2 /
          HyMD.Force.ratSqrt
            (HyMD.minImage ((1 : ℚ) + (1 : ℤ) * (2 : ℚ) - 0) 2 *
                HyMD.minImage ((1 : ℚ) + (1 : ℤ) * (2 : ℚ) - 0) 2 +
              HyMD.minImage ((0 : ℚ) + 0 - 0) 10 *
                HyMD.minImage ((0 : ℚ) + 0 - 0) 10 +
              HyMD.minImage ((0 : ℚ) + 0 - 0) 10 *
                HyMD.minImage ((0 : ℚ) + 0 - 0) 10) := rfl
  have hcompR : ((HyMD.Force.compute_bond_forces HyMD.Force.ratSqrt
      [HyMD.vzero, HyMD.vzero]
      [((0 : ℚ), (0 : ℚ), (0 : ℚ)), ((1 : ℚ), (0 : ℚ), (0 : ℚ))]
      [{ i := 0, j := 1, equilibrium := 0, strength := 1 }]
      ((2 : ℚ), (10 : ℚ), (10 : ℚ))).1.getD 0 HyMD.vzero).1
      = 0 - -(1:ℚ) *
          (HyMD.Force.ratSqrt
            (HyMD.minImage ((1 : ℚ) - 0) 2 * HyMD.minImage ((1 : ℚ) - 0) 2 +
              HyMD.minImage ((0 : ℚ) - 0) 10 * HyMD.minImage ((0 : ℚ) - 0) 10 +
              HyMD.minImage ((0 : ℚ) - 0) 10 * HyMD.minImage ((0 : ℚ) - 0) 10) - 0) *
          HyMD.minImage ((1 : ℚ) - 0) 2 /
          HyMD.Force.ratSqrt
            (HyMD.minImage ((1 : ℚ) - 0) 2 * HyMD.minImage ((1 : ℚ) - 0) 2 +
              HyMD.minImage ((0 : ℚ) - 0) 10 * HyMD.minImage ((0 : ℚ) - 0) 10 +
              HyMD.minImage ((0 : ℚ) - 0) 10 * HyMD.minImage ((0 : ℚ) - 0) 10) := rfl
  rw [hcompL, hcompR] at h
  rw [show ((1 : ℚ) + (1 : ℤ) * (2 : ℚ) - 0) = 3 by push_cast; ring,
    show ((0 : ℚ) + 0 - 0) = 0 by ring, show ((1 : ℚ) - 0) = 1 by ring,
    show ((0 : ℚ) - 0) = 0 by ring, hm0, hm1, hm3] at h
  norm_num [hs1] at h

/-! ## CSVR thermostat (hymd/thermostat.py) -/

namespace HyMD.Thermostat

open HyMD

/-- The slice of the configuration consumed by `csvr_thermostat`. -/
structure Config where
  thermostat_coupling_groups : List (List String)
  unique_names : List String
  mass : ℚ
  target_temperature : ℚ
  time_step : ℚ
  respa_inner : ℚ
  tau : ℚ
  thermostat_work : ℚ

/-- Deterministic stand-ins for the numeric backends and the pluggable
random generators: `sqrt` and `exp` model `np.sqrt` and `np.exp`;
`gaussian` is the broadcast value of `random_gaussian()`; `chiSquared M`
the broadcast value of `random_chi_squared(M)`. The embedding models a
single-rank run, where every `allreduce` and `bcast` is the identity. -/
structure Stubs where
  sqrt : ℚ → ℚ
  exp : ℚ → ℚ
  gaussian : ℚ
  chiSquared : ℤ → ℚ

/-- Local indices of the particles whose type name belongs to the coupling
group, as selected by `np.where(np.logical_or.reduce(...))`. -/
def selIdx (names : List String) (group : List String) : List ℕ :=
  (List.range names.length).filter
    (fun li => group.contains (names.getD li ""))

/-- All intermediate values of one coupling-group pass of
`csvr_thermostat`. `alpha2` is `some` exactly when the
`group_n_particles > 0` branch ran. -/
structure GroupResult where
  velocity : List Vec3
  thermostat_work : ℚ
  group_n_particles : ℕ
  K : ℚ
  K_target : ℚ
  N_f : ℤ
  c : ℚ
  R : ℚ
  SNf : ℚ
  alpha2 : Option ℚ

/-- One coupling-group pass of `csvr_thermostat` (thermostat.py lines
130-168), single-rank, with total `ℚ` division (a zero denominator yields
the junk value 0 where numpy would produce nan; the checked variant below
detects those). -/
def csvrGroupStep (st : Stubs) (cfg : Config) (names : List String)
    (vel : List Vec3) (work : ℚ) (group : List String) : GroupResult :=
  let ind := selIdx names group
  let N : ℕ := ind.length
  let com : Vec3 := (ind.map (fun li => vel.getD li vzero)).sum
  let comN : Vec3 := vdiv com (N : ℚ)
  let clean : ℕ → Vec3 := fun li => vel.getD li vzero - comN
  let K : ℚ :=
    (1/2) * cfg.mass * (ind.map (fun li => dot (clean li) (clean li))).sum
  let K_target : ℚ :=
    (3/2) * ((2.479 : ℚ) / 298) * N * cfg.target_temperature
  let N_f : ℤ := 3 * N
  let c : ℚ := st.exp (-(cfg.time_step * cfg.respa_inner) / cfg.tau)
  let R : ℚ := st.gaussian
  let SNf : ℚ := st.chiSquared (N_f - 1)
  let alpha2 : Option ℚ :=
    if 0 < N then
      some (c + (1 - c) * (SNf + R ^ 2) * K_target / ((N_f : ℚ) * K)
        + 2 * R * st.sqrt (c * (1 - c) * K_target / ((N_f : ℚ) * K)))
    else none
  let dK : ℚ := match alpha2 with
    | some a2 => K * (a2 - 1)
    | none => 0
  let alpha : ℚ := match alpha2 with
    | some a2 => st.sqrt a2
    | none => 1
  { velocity :=
      (List.range vel.length).map (fun li =>
        if group.contains (names.getD li "") then
          alpha • clean li + comN
        else vel.getD li vzero)
    thermostat_work := work + dK
    group_n_particles := N
    K := K
    K_target := K_target
    N_f := N_f
    c := c
    R := R
    SNf := SNf
    alpha2 := alpha2 }

/-- The group list actually iterated: when no coupling group is truthy
(`if not any(...)`), default to a single group of all unique names. -/
def effectiveGroups (cfg : Config) : List (List String) :=
  if cfg.thermostat_coupling_groups.any (fun g => !g.isEmpty) then
    cfg.thermostat_coupling_groups
  else [cfg.unique_names]

/-- `csvr_thermostat`, single-rank: apply the group pass sequentially to
the velocity array, threading the thermostat-work accumulator. -/
def csvr_thermostat (st : Stubs) (vel : List Vec3) (names : List String)
    (cfg : Config) : List Vec3 × ℚ :=
  (effectiveGroups cfg).foldl
    (fun acc group =>
      let res := csvrGroupStep st cfg names acc.1 acc.2 group
      (res.velocity, res.thermostat_work))
    (vel, cfg.thermostat_work)

/-- The degrees-of-freedom argument handed to `random_chi_squared` on the
root rank: `N_f - 1` with `N_f = 3 * group_n_particles`. -/
def chiDofRequested (names : List String) (group : List String) : ℤ :=
  3 * ((selIdx names group).length : ℤ) - 1

def vdivChecked (v : Vec3) (q : ℚ) : Option Vec3 :=
  if q = 0 then none else some (vdiv v q)

def qdivChecked (a b : ℚ) : Option ℚ :=
  if b = 0 then none else some (a / b)

/-- The group pass with every division guarded: `none` exactly when the
pass reaches a division whose denominator is zero. The first division,
`com_velocity / group_n_particles` (line 138), is sequenced before the
`group_n_particles > 0` guard (line 156), exactly as in the source. -/
def csvrGroupStepChecked (st : Stubs) (cfg : Config) (names : List String)
    (vel : List Vec3) (work : ℚ) (group : List String) :
    Option GroupResult := do
  let ind := selIdx names group
  let N : ℕ := ind.length
  let com : Vec3 := (ind.map (fun li => vel.getD li vzero)).sum
  let comN ← vdivChecked com (N : ℚ)
  let clean : ℕ → Vec3 := fun li => vel.getD li vzero - comN
  let K : ℚ :=
    (1/2) * cfg.mass * (ind.map (fun li => dot (clean li) (clean li))).sum
  let K_target : ℚ :=
    (3/2) * ((2.479 : ℚ) / 298) * N * cfg.target_temperature
  let N_f : ℤ := 3 * N
  let cArg ← qdivChecked (-(cfg.time_step * cfg.respa_inner)) cfg.tau
  let c : ℚ := st.exp cArg
  let R : ℚ := st.gaussian
  let SNf : ℚ := st.chiSquared (N_f - 1)
  let alpha2 ←
    if 0 < N then
      (qdivChecked ((1 - c) * (SNf + R ^ 2) * K_target) ((N_f : ℚ) * K)).bind
        (fun q1 =>
          (qdivChecked (c * (1 - c) * K_target) ((N_f : ℚ) * K)).map
            (fun q2 => some (c + q1 + 2 * R * st.sqrt q2)))
    else some none
  let dK : ℚ := match alpha2 with
    | some a2 => K * (a2 - 1)
    | none => 0
  let alpha : ℚ := match alpha2 with
    | some a2 => st.sqrt a2
    | none => 1
  let comN2 ← vdivChecked com (N : ℚ)
  some
    { velocity :=
        (List.range vel.length).map (fun li =>
          if group.contains (names.getD li "") then
            alpha • clean li + comN2
          else vel.getD li vzero)
      thermostat_work := work + dK
      group_n_particles := N
      K := K
      K_target := K_target
      N_f := N_f
      c := c
      R := R
      SNf := SNf
      alpha2 := alpha2 }

/-- The sum of the selected velocities of a coupling group. -/
def sumSel (names group : List String) (vel : List Vec3) : Vec3 :=
  ((selIdx names group).map (fun li => vel.getD li vzero)).sum

/-- The center-of-mass velocity of a coupling group: the sum of its
selected velocities divided by the group particle count. -/
def comSel (names group : List String) (vel : List Vec3) : Vec3 :=
  vdiv (sumSel names group vel) (((selIdx names group).length : ℕ) : ℚ)

end HyMD.Thermostat

namespace HyMD.Thermostat

/-- The closed-form scale factor of spec section 4.3 step 8, written from
the specification's words. -/
def alphaSqSpec (sqrt : ℚ → ℚ) (c R SNf K_target : ℚ) (N_f : ℤ) (K : ℚ) : ℚ :=
  c + (1 - c) * (SNf + R ^ 2) * K_target / ((N_f : ℚ) * K)
    + 2 * R * sqrt (c * (1 - c) * K_target / ((N_f : ℚ) * K))

/-- The target kinetic energy of spec section 4.3 step 5, written from the
specification's words: `1.5 * (2.479/298.0) * N * T_target`. -/
def KtargetSpec (N : ℕ) (T : ℚ) : ℚ :=
  (1.5 : ℚ) * ((2.479 : ℚ) / 298) * N * T

theorem mem_selIdx {names group : List String} {li : ℕ}
    (h : li ∈ selIdx names group) :
    li < names.length ∧ group.contains (names.getD li "") = true := by
  unfold selIdx at h
  rw [List.mem_filter] at h
  exact ⟨List.mem_range.mp h.1, h.2⟩

theorem getD_range_map (n : ℕ) (f : ℕ → Vec3) (li : ℕ) (hli : li < n) :
    ((List.range n).map f).getD li vzero = f li := by
  rw [List.getD_eq_getElem?_getD, List.getElem?_map, List.getElem?_range hli]
  rfl

theorem vdiv_eq_smul (v : Vec3) (q : ℚ) : vdiv v q = q⁻¹ • v := by
  obtain ⟨a, b, c⟩ := v
  simp [vdiv, Prod.ext_iff, div_eq_inv_mul]

theorem nsmul_vdiv_self (v : Vec3) (n : ℕ) (hn : 0 < n) :
    n • vdiv v (n : ℚ) = v := by
  rw [vdiv_eq_smul, ← Nat.cast_smul_eq_nsmul ℚ, smul_smul,
    mul_inv_cancel₀ (Nat.cast_ne_zero.mpr hn.ne'), one_smul]

theorem sum_map_affine (l : List ℕ) (w : ℕ → Vec3) (alpha : ℚ) (cc : Vec3) :
    (l.map (fun li => alpha • (w li - cc) + cc)).sum
      = alpha • ((l.map w).sum - l.length • cc) + l.length • cc := by
  induction l with
  | nil => simp
  | cons a t ih =>
      simp only [List.map_cons, List.sum_cons, List.length_cons, succ_nsmul]
      rw [ih]
      simp only [smul_sub, smul_add]
      abel

theorem sumSel_rescale (names group : List String) (vel : List Vec3)
    (alpha : ℚ) (comN : Vec3)
    (hlen : names.length ≤ vel.length)
    (hcomN : (selIdx names group).length • comN = sumSel names group vel) :
    sumSel names group
      ((List.range vel.length).map (fun k =>
        if group.contains (names.getD k "") then
          alpha • (vel.getD k vzero - comN) + comN
        else vel.getD k vzero))
      = sumSel names group vel := by
  show ((selIdx names group).map _).sum = _
  have hmap : ((selIdx names group).map (fun li =>
      ((List.range vel.length).map (fun k =>
        if group.contains (names.getD k "") then
          alpha • (vel.getD k vzero - comN) + comN
        else vel.getD k vzero)).getD li vzero))
      = (selIdx names group).map
          (fun li => alpha • (vel.getD li vzero - comN) + comN) :=
    List.map_congr_left (fun li hli => by
      obtain ⟨h1, h2⟩ := mem_selIdx hli
      rw [getD_range_map _ _ _ (lt_of_lt_of_le h1 hlen), if_pos h2])
  rw [hmap, sum_map_affine, hcomN,
    show ((selIdx names group).map (fun li => vel.getD li vzero)).sum
      = sumSel names group vel from rfl]
  simp

theorem csvrGroupStep_velocity_length (st : Stubs) (cfg : Config)
    (names : List String) (vel : List Vec3) (work : ℚ)
    (group : List String) :
    (csvrGroupStep st cfg names vel work group).velocity.length
      = vel.length := by
  simp [csvrGroupStep]

/-- One group pass conserves the sum of its own selected velocities. -/
theorem csvrGroupStep_sumSel (st : Stubs) (cfg : Config)
    (names : List String) (vel : List Vec3) (work : ℚ)
    (group : List String)
    (hN : 0 < (selIdx names group).length)
    (hlen : names.length ≤ vel.length) :
    sumSel names group (csvrGroupStep st cfg names vel work group).velocity
      = sumSel names group vel := by
  simp only [csvrGroupStep]
  refine sumSel_rescale names group vel _ _ hlen ?_
  have hcom : ((selIdx names group).map (fun li => vel.getD li vzero)).sum
      = sumSel names group vel := rfl
  rw [hcom]
  exact nsmul_vdiv_self _ _ hN

/-- A group pass leaves the velocities of a disjoint group untouched. -/
theorem csvrGroupStep_sumSel_disjoint (st : Stubs) (cfg : Config)
    (names : List String) (vel : List Vec3) (work : ℚ)
    (g g' : List String)
    (hlen : names.length ≤ vel.length)
    (hdis : ∀ n ∈ g', n ∉ g) :
    sumSel names g (csvrGroupStep st cfg names vel work g').velocity
      = sumSel names g vel := by
  have hmap : ((selIdx names g).map (fun li =>
      (csvrGroupStep st cfg names vel work g').velocity.getD li vzero))
      = (selIdx names g).map (fun li => vel.getD li vzero) :=
    List.map_congr_left (fun li hli => by
      obtain ⟨h1, h2⟩ := mem_selIdx hli
      have hne : g'.contains (names.getD li "") = false := by
        rcases Bool.eq_false_or_eq_true (g'.contains (names.getD li "")) with hb | hb
        · exact absurd (List.elem_iff.mp h2) (hdis _ (List.elem_iff.mp hb))
        · exact hb
      show (csvrGroupStep st cfg names vel work g').velocity.getD li vzero
          = vel.getD li vzero
      simp only [csvrGroupStep]
      rw [getD_range_map _ _ _ (lt_of_lt_of_le h1 hlen),
        if_neg (by rw [hne]; exact Bool.false_ne_true)])
  show ((selIdx names g).map (fun li =>
      (csvrGroupStep st cfg names vel work g').velocity.getD li vzero)).sum
    = sumSel names g vel
  rw [hmap]
  rfl

end HyMD.Thermostat

namespace HyMD.Thermostat

/-- Folding the group passes over a list of groups that are each either
`g` itself or type-disjoint from `g` conserves `g`'s selected-velocity
sum. -/
theorem foldl_groups_sumSel (st : Stubs) (cfg : Config)
    (names : List String) (g : List String) (groups : List (List String))
    (hN : 0 < (selIdx names g).length)
    (hdisj : ∀ g' ∈ groups, g' = g ∨ ∀ n ∈ g', n ∉ g) :
    ∀ (vel : List Vec3) (work : ℚ), names.length ≤ vel.length →
      sumSel names g
        (groups.foldl
          (fun acc group =>
            let res := csvrGroupStep st cfg names acc.1 acc.2 group
            (res.velocity, res.thermostat_work))
          (vel, work)).1
        = sumSel names g vel := by
  induction groups with
  | nil => intro vel work _; rfl
  | cons g' t ih =>
      intro vel work hlen
      rw [List.foldl_cons]
      have hlen' : names.length
          ≤ (csvrGroupStep st cfg names vel work g').velocity.length := by
        rw [csvrGroupStep_velocity_length]
        exact hlen
      rw [ih (fun x hx => hdisj x (List.mem_cons_of_mem _ hx)) _ _ hlen']
      rcases hdisj g' (List.mem_cons_self _ _) with heq | hdis
      · subst heq
        exact csvrGroupStep_sumSel st cfg names vel work g' hN hlen
      · exact csvrGroupStep_sumSel_disjoint st cfg names vel work g g'
          hlen hdis

/-- Stub values used by the concrete witnesses below. -/
def exampleStubs : Stubs :=
  { sqrt := id, exp := id, gaussian := 1, chiSquared := fun _ => 2 }

/-- Configuration used by the concrete witnesses below. -/
def exampleConfig : Config :=
  { thermostat_coupling_groups := [["A"]]
    unique_names := ["A"]
    mass := 72
    target_temperature := 300
    time_step := 3/100
    respa_inner := 5
    tau := 7/10
    thermostat_work := 0 }

end HyMD.Thermostat

/-- C7: for a coupling group with N > 0 particles and fixed stub values R
and SNf, one group pass of the thermostat computes the scale factor
exactly by the closed-form equation
`alpha^2 = c + (1-c)*(SNf + R^2)*K_target/(N_f*K)
  + 2*R*sqrt(c*(1-c)*K_target/(N_f*K))` with
`K_target = 1.5*(2.479/298.0)*N*T_target` and `N_f = 3N`, and adds
exactly `dK = K*(alpha^2 - 1)` to the running thermostat-work
accumulator. -/
theorem c7_alpha2_formula (st : HyMD.Thermostat.Stubs)
    (cfg : HyMD.Thermostat.Config) (names : List String)
    (vel : List HyMD.Vec3) (work : ℚ) (group : List String)
    (hN : 0 < (HyMD.Thermostat.selIdx names group).length) :
    (HyMD.Thermostat.csvrGroupStep st cfg names vel work group).alpha2
      = some (HyMD.Thermostat.alphaSqSpec st.sqrt
          (HyMD.Thermostat.csvrGroupStep st cfg names vel work group).c
          (HyMD.Thermostat.csvrGroupStep st cfg names vel work group).R
          (HyMD.Thermostat.csvrGroupStep st cfg names vel work group).SNf
          (HyMD.Thermostat.KtargetSpec
            (HyMD.Thermostat.csvrGroupStep st cfg names vel work
              group).group_n_particles
            cfg.target_temperature)
          (3 * ((HyMD.Thermostat.csvrGroupStep st cfg names vel work
              group).group_n_particles : ℤ))
          (HyMD.Thermostat.csvrGroupStep st cfg names vel work group).K) ∧
    (HyMD.Thermostat.csvrGroupStep st cfg names vel work group).K_target
      = HyMD.Thermostat.KtargetSpec
          (HyMD.Thermostat.csvrGroupStep st cfg names vel work
            group).group_n_particles
          cfg.target_temperature ∧
    (HyMD.Thermostat.csvrGroupStep st cfg names vel work group).N_f
      = 3 * ((HyMD.Thermostat.csvrGroupStep st cfg names vel work
          group).group_n_particles : ℤ) ∧
    (HyMD.Thermostat.csvrGroupStep st cfg names vel work
        group).thermostat_work
      = work + (HyMD.Thermostat.csvrGroupStep st cfg names vel work
          group).K *
          (HyMD.Thermostat.alphaSqSpec st.sqrt
            (HyMD.Thermostat.csvrGroupStep st cfg names vel work group).c
            (HyMD.Thermostat.csvrGroupStep st cfg names vel work group).R
            (HyMD.Thermostat.csvrGroupStep st cfg names vel work group).SNf
            (HyMD.Thermostat.KtargetSpec
              (HyMD.Thermostat.csvrGroupStep st cfg names vel work
                group).group_n_particles
              cfg.target_temperature)
            (3 * ((HyMD.Thermostat.csvrGroupStep st cfg names vel work
                group).group_n_particles : ℤ))
            (HyMD.Thermostat.csvrGroupStep st cfg names vel work group).K
            - 1) := by
  refine ⟨?_, ?_, ?_, ?_⟩ <;>
    simp only [HyMD.Thermostat.csvrGroupStep, HyMD.Thermostat.alphaSqSpec,
      HyMD.Thermostat.KtargetSpec, if_pos hN] <;>
    norm_num

theorem c7_alpha2_formula_witness :
    0 < (HyMD.Thermostat.selIdx ["A"] ["A"]).length ∧
    (HyMD.Thermostat.csvrGroupStep HyMD.Thermostat.exampleStubs
        HyMD.Thermostat.exampleConfig ["A"] [((1 : ℚ), (2 : ℚ), (3 : ℚ))] 0
        ["A"]).K_target
      = HyMD.Thermostat.KtargetSpec
          (HyMD.Thermostat.csvrGroupStep HyMD.Thermostat.exampleStubs
            HyMD.Thermostat.exampleConfig ["A"]
            [((1 : ℚ), (2 : ℚ), (3 : ℚ))] 0 ["A"]).group_n_particles
          HyMD.Thermostat.exampleConfig.target_temperature :=
  ⟨by decide,
    (c7_alpha2_formula HyMD.Thermostat.exampleStubs
      HyMD.Thermostat.exampleConfig ["A"] [((1 : ℚ), (2 : ℚ), (3 : ℚ))] 0
      ["A"] (by decide)).2.1⟩

/-- C8: for every coupling group with nonzero particle count whose type
names are disjoint from every other coupling group, the group's
center-of-mass velocity (sum of selected velocities divided by the group
count) is the same before and after the thermostat call: the removed
center-of-mass velocity is re-added unchanged after rescaling the
center-of-mass-free components. Stated for every stub backend. -/
theorem c8_com_conserved (st : HyMD.Thermostat.Stubs)
    (vel : List HyMD.Vec3) (names : List String)
    (cfg : HyMD.Thermostat.Config) (g : List String)
    (hg : g ∈ HyMD.Thermostat.effectiveGroups cfg)
    (hN : 0 < (HyMD.Thermostat.selIdx names g).length)
    (hlen : names.length ≤ vel.length)
    (hdisj : ∀ g' ∈ HyMD.Thermostat.effectiveGroups cfg,
      g' = g ∨ ∀ n ∈ g', n ∉ g) :
    HyMD.Thermostat.comSel names g
        (HyMD.Thermostat.csvr_thermostat st vel names cfg).1
      = HyMD.Thermostat.comSel names g vel := by
  unfold HyMD.Thermostat.comSel
  rw [show HyMD.Thermostat.sumSel names g
      (HyMD.Thermostat.csvr_thermostat st vel names cfg).1
    = HyMD.Thermostat.sumSel names g vel from
    HyMD.Thermostat.foldl_groups_sumSel st cfg names g
      (HyMD.Thermostat.effectiveGroups cfg) hN hdisj vel
      cfg.thermostat_work hlen]

theorem c8_com_conserved_witness :
    (["A"] ∈ HyMD.Thermostat.effectiveGroups HyMD.Thermostat.exampleConfig) ∧
    0 < (HyMD.Thermostat.selIdx ["A"] ["A"]).length ∧
    HyMD.Thermostat.comSel ["A"] ["A"]
        (HyMD.Thermostat.csvr_thermostat HyMD.Thermostat.exampleStubs
          [((1 : ℚ), (2 : ℚ), (3 : ℚ))] ["A"]
          HyMD.Thermostat.exampleConfig).1
      = HyMD.Thermostat.comSel ["A"] ["A"] [((1 : ℚ), (2 : ℚ), (3 : ℚ))] :=
  ⟨by decide, by decide,
    c8_com_conserved HyMD.Thermostat.exampleStubs
      [((1 : ℚ), (2 : ℚ), (3 : ℚ))] ["A"] HyMD.Thermostat.exampleConfig
      ["A"] (by decide) (by decide) (by decide) (by decide)⟩

/-- C10: when a coupling group selects no particles (N = 0), the group
pass still divides the summed group momentum by N before reaching the
N > 0 guard - the division-checked embedding aborts with `none` on the
`com_velocity / group_n_particles` division - and the requested
chi-squared degrees of freedom `N_f - 1 = -1`, instead of the empty group
being skipped cleanly. -/
theorem c10_empty_group_div_zero (st : HyMD.Thermostat.Stubs)
    (cfg : HyMD.Thermostat.Config) (names : List String)
    (vel : List HyMD.Vec3) (work : ℚ) (group : List String)
    (hN : (HyMD.Thermostat.selIdx names group).length = 0) :
    HyMD.Thermostat.csvrGroupStepChecked st cfg names vel work group = none ∧
    HyMD.Thermostat.chiDofRequested names group = -1 := by
  constructor
  · simp [HyMD.Thermostat.csvrGroupStepChecked,
      HyMD.Thermostat.vdivChecked, hN]
  · simp [HyMD.Thermostat.chiDofRequested, hN]

theorem c10_empty_group_div_zero_witness :
    (HyMD.Thermostat.selIdx ["A"] ["B"]).length = 0 ∧
    HyMD.Thermostat.csvrGroupStepChecked HyMD.Thermostat.exampleStubs
        HyMD.Thermostat.exampleConfig ["A"] [((1 : ℚ), (2 : ℚ), (3 : ℚ))] 0
        ["B"] = none ∧
    HyMD.Thermostat.chiDofRequested ["A"] ["B"] = -1 :=
  ⟨by decide,
    (c10_empty_group_div_zero HyMD.Thermostat.exampleStubs
      HyMD.Thermostat.exampleConfig ["A"] [((1 : ℚ), (2 : ℚ), (3 : ℚ))] 0
      ["B"] (by decide)).1,
    (c10_empty_group_div_zero HyMD.Thermostat.exampleStubs
      HyMD.Thermostat.exampleConfig ["A"] [((1 : ℚ), (2 : ℚ), (3 : ℚ))] 0
      ["B"] (by decide)).2⟩
